import Mathlib

/-!
Shallow embedding of the Chatrack messaging backend's message lifecycle and
presence subsystem, translated from the JavaScript source:

* `src/controllers/messageController.js` — durable-path operations
  (`sendMessage`, `getMessages`, `markMessageRead`, `deleteMessage`,
  `addReaction`);
* `src/index.js` — socket layer (`join` / `sendMessage` / `disconnect`
  handlers, `updateUserStatus`);
* `src/unnamed/part_002` — a legacy socket entry point whose `sendMessage`
  handler relays the payload without persisting it;
* `src/unnamed/part_000` — the Mongoose `Message` schema (field defaults).

MongoDB documents become records in a `Store`; `await model.save()` becomes
a functional update of the message list keyed by id; `Date` timestamps are
`Nat` supplied explicitly by the caller (`now`), mirroring `new Date()` at
each call site.
-/

namespace Chatrack

abbrev UserId := Nat
abbrev MsgId := Nat
abbrev Time := Nat

/-- Content kinds of `MessageSchema.messageType`
(`enum: ["text", "image", "video", "audio", "document", "location"]`). -/
inductive MessageType
  | text | image | video | audio | document | location
deriving DecidableEq, Repr

/-- One entry of `MessageSchema.reactions`: `{ user, emoji }`. -/
structure Reaction where
  user : UserId
  emoji : String
deriving DecidableEq, Repr

/-- A persisted message document (fields of `MessageSchema` in
`src/unnamed/part_000`, with schema defaults made explicit). -/
structure Message where
  id : MsgId
  sender : UserId
  receiver : UserId
  text : String
  messageType : MessageType
  mediaUrl : Option String
  replyTo : Option MsgId
  isRead : Bool
  readAt : Option Time
  reactions : List Reaction
  isDeleted : Bool
  deletedFor : List UserId
  oneTimeView : Bool
  viewedAt : Option Time
  timestamp : Time
deriving DecidableEq, Repr

/-- Presence status of `UserSchema.status`
(`enum: ["online", "offline", "away", "busy"]`). -/
inductive UserStatus
  | online | offline | away | busy
deriving DecidableEq, Repr

/-- The slice of a `User` document the messaging core reads and writes:
`blockedUsers` (consumed by the send guards), `status` and `lastSeen`
(written by `updateUserStatus`). -/
structure User where
  id : UserId
  blockedUsers : List UserId
  status : UserStatus
  lastSeen : Option Time
deriving DecidableEq, Repr

/-- The MongoDB database as seen by the messaging core: the `users` and
`messages` collections plus the id the next inserted message receives. -/
structure Store where
  users : List User
  messages : List Message
  nextId : MsgId
deriving DecidableEq, Repr

/-- `User.findById` — first user document with the given id. -/
def findUser (s : Store) (uid : UserId) : Option User :=
  s.users.find? (fun u => u.id == uid)

/-- `Message.findById` — first message document with the given id. -/
def findMessage (s : Store) (mid : MsgId) : Option Message :=
  s.messages.find? (fun m => m.id == mid)

/-- `message.save()` after mutating the document found by id: the document
with that id is replaced by the mutated version. -/
def saveMessage (s : Store) (mid : MsgId) (updated : Message) : Store :=
  { s with messages := s.messages.map (fun m => if m.id == mid then updated else m) }

/-- Result kinds of the durable HTTP path: 404, 403, 400. -/
inductive HttpError
  | notFound | forbidden | badRequest
deriving DecidableEq, Repr

/-- Construction of a new `Message` document, shared verbatim by the durable
controller (`messageController.js` lines 25–34) and the live socket handler
(`index.js` lines 104–112): `messageType || "text"`, `mediaUrl || null`,
`replyTo || null`, `oneTimeView || false`, server-side timestamp. -/
def mkMessage (s : Store) (sender receiver : UserId) (text : String)
    (messageType : Option MessageType) (mediaUrl : Option String)
    (replyTo : Option MsgId) (oneTimeView : Option Bool) (now : Time) : Message :=
  { id := s.nextId
    sender := sender
    receiver := receiver
    text := text
    messageType := messageType.getD .text
    mediaUrl := mediaUrl
    replyTo := replyTo
    isRead := false
    readAt := none
    reactions := []
    isDeleted := false
    deletedFor := []
    oneTimeView := oneTimeView.getD false
    viewedAt := none
    timestamp := now }

/-- `Store` after inserting a freshly created message (`newMessage.save()`). -/
def insertMessage (s : Store) (m : Message) : Store :=
  { s with messages := s.messages ++ [m], nextId := s.nextId + 1 }

/-- Durable-path `sendMessage` (`messageController.js`): 404 when the
receiver id resolves to no user, 403 when the receiver's `blockedUsers`
contains the sender, otherwise create and persist the message. -/
def sendMessage (s : Store) (sender receiver : UserId) (text : String)
    (messageType : Option MessageType) (mediaUrl : Option String)
    (replyTo : Option MsgId) (oneTimeView : Option Bool) (now : Time) :
    Except HttpError (Message × Store) :=
  match findUser s receiver with
  | none => .error .notFound
  | some receiverUser =>
    if receiverUser.blockedUsers.contains sender then
      .error .forbidden
    else
      let newMessage := mkMessage s sender receiver text messageType mediaUrl replyTo oneTimeView now
      .ok (newMessage, insertMessage s newMessage)

/-- A `newMessage` socket emission: `io.to(target).emit("newMessage", message)`. -/
structure Emit where
  target : UserId
  message : Message
deriving DecidableEq, Repr

/-- Live-path `sendMessage` handler of `src/index.js` (lines 85–139):
reject when a required field is missing (`!sender || !receiver || !text`),
reject when the receiver exists and has blocked the sender
(`receiverUser && receiverUser.blockedUsers.includes(sender)`), otherwise
save the message and emit `newMessage` to the sender's and receiver's rooms. -/
def socketSendMessage (s : Store) (sender receiver : Option UserId)
    (text : Option String) (messageType : Option MessageType)
    (mediaUrl : Option String) (replyTo : Option MsgId)
    (oneTimeView : Option Bool) (now : Time) :
    Except String (Store × List Emit) :=
  match sender, receiver, text with
  | some snd, some rcv, some txt =>
    if txt = "" then
      .error "Missing required fields"
    else
      let blocked := match findUser s rcv with
        | some receiverUser => receiverUser.blockedUsers.contains snd
        | none => false
      if blocked then
        .error "Cannot send message to this user"
      else
        let newMessage := mkMessage s snd rcv txt messageType mediaUrl replyTo oneTimeView now
        .ok (insertMessage s newMessage, [⟨snd, newMessage⟩, ⟨rcv, newMessage⟩])
  | _, _, _ => .error "Missing required fields"

/-- A raw relayed payload on the legacy socket path: the event carries the
client-supplied fields, not a persisted document. -/
structure LiveEvent where
  target : UserId
  payloadSender : UserId
  payloadReceiver : UserId
  payloadText : String
deriving DecidableEq, Repr

/-- Legacy live-path `sendMessage` handler of `src/unnamed/part_002`
(lines 63–75): the payload is emitted to the sender's and receiver's rooms
as-is; nothing is written to the database. -/
def socketSendMessageLegacy (s : Store) (sender receiver : UserId)
    (text : String) : Store × List LiveEvent :=
  (s, [⟨sender, sender, receiver, text⟩, ⟨receiver, sender, receiver, text⟩])

/-- Predicate of the `$or` clause in `getMessages`: the message is between
`currentUserId` and `otherUserId` in either direction. -/
def betweenUsers (currentUserId otherUserId : UserId) (m : Message) : Bool :=
  (m.sender == currentUserId && m.receiver == otherUserId) ||
    (m.sender == otherUserId && m.receiver == currentUserId)

/-- Insertion step of `.sort({ timestamp: 1 })`. -/
def insertByTimestamp (m : Message) : List Message → List Message
  | [] => [m]
  | x :: xs =>
    if m.timestamp ≤ x.timestamp then m :: x :: xs
    else x :: insertByTimestamp m xs

/-- `.sort({ timestamp: 1 })` — ascending by creation time. -/
def sortByTimestamp : List Message → List Message
  | [] => []
  | x :: xs => insertByTimestamp x (sortByTimestamp xs)

/-- Durable-path `getMessages` (`messageController.js` lines 61–110):
fetch the messages between the two users whose `deletedFor` does not
contain the requester, sorted ascending by timestamp; then, as a side
effect, mark the fetched messages sent by the counterpart and still unread
as read (`updateMany` with `isRead: true, readAt: new Date()`). The
response is the list as fetched, before the update. -/
def getMessages (s : Store) (currentUserId otherUserId : UserId) (now : Time) :
    List Message × Store :=
  let messages := sortByTimestamp (s.messages.filter
    (fun m => betweenUsers currentUserId otherUserId m &&
      !(m.deletedFor.contains currentUserId)))
  let unreadMessages := messages.filter (fun m => m.sender == otherUserId && !m.isRead)
  let unreadIds := unreadMessages.map Message.id
  let updatedStore :=
    if unreadMessages.isEmpty then s
    else { s with messages := s.messages.map (fun m =>
      if unreadIds.contains m.id then { m with isRead := true, readAt := some now } else m) }
  (messages, updatedStore)

/-- The document mutation of `markMessageRead` (`messageController.js`
lines 131–138): set `isRead = true`, re-stamp `readAt = new Date()`
unconditionally, and stamp `viewedAt` when `oneTimeView` holds and
`viewedAt` is still unset. -/
def markReadUpdate (message : Message) (now : Time) : Message :=
  { message with
    isRead := true
    readAt := some now
    viewedAt :=
      if message.oneTimeView && message.viewedAt.isNone then some now
      else message.viewedAt }

/-- Durable-path `markMessageRead` (`messageController.js` lines 115–147):
404 when the message id resolves to nothing, 403 when the acting user is
not the stored receiver; otherwise apply `markReadUpdate` and save. -/
def markMessageRead (s : Store) (messageId : MsgId) (userId : UserId) (now : Time) :
    Except HttpError Store :=
  match findMessage s messageId with
  | none => .error .notFound
  | some message =>
    if message.receiver ≠ userId then
      .error .forbidden
    else
      .ok (saveMessage s messageId (markReadUpdate message now))

/-- Fixed tombstone body written by the delete-for-everyone branch. -/
def tombstoneText : String := "This message was deleted"

/-- Durable-path `deleteMessage` (`messageController.js` lines 152–188):
404 when the id resolves to nothing; 403 when the acting user is neither
sender nor receiver; when `deleteForEveryone` and the actor is the sender,
set `isDeleted = true` and replace the body by the tombstone; in every
other authorized case push the actor onto `deletedFor`. -/
def deleteMessage (s : Store) (messageId : MsgId) (userId : UserId)
    (deleteForEveryone : Bool) : Except HttpError Store :=
  match findMessage s messageId with
  | none => .error .notFound
  | some message =>
    let isSender := message.sender == userId
    let isReceiver := message.receiver == userId
    if !isSender && !isReceiver then
      .error .forbidden
    else if deleteForEveryone && isSender then
      .ok (saveMessage s messageId { message with isDeleted := true, text := tombstoneText })
    else
      .ok (saveMessage s messageId { message with deletedFor := message.deletedFor ++ [userId] })

/-- Reaction toggle of `addReaction` (`messageController.js` lines 209–222):
when a reaction by this user with this emoji exists, filter out every such
reaction; otherwise append `{ user, emoji }`. -/
def toggleReaction (reactions : List Reaction) (userId : UserId) (emoji : String) :
    List Reaction :=
  if reactions.any (fun r => r.user == userId && r.emoji == emoji) then
    reactions.filter (fun r => !(r.user == userId && r.emoji == emoji))
  else
    reactions ++ [⟨userId, emoji⟩]

/-- Durable-path `addReaction` (`messageController.js` lines 193–231):
400 when the emoji is missing, 404 when the message id resolves to
nothing, otherwise toggle the `(user, emoji)` reaction and save. -/
def addReaction (s : Store) (messageId : MsgId) (userId : UserId) (emoji : String) :
    Except HttpError (List Reaction × Store) :=
  if emoji = "" then
    .error .badRequest
  else
    match findMessage s messageId with
    | none => .error .notFound
    | some message =>
      let newReactions := toggleReaction message.reactions userId emoji
      .ok (newReactions, saveMessage s messageId { message with reactions := newReactions })

/-- `updateUserStatus` (`src/index.js` lines 295–306): set the user's
`status`; stamp `lastSeen` only when the new status is `offline`
(the `undefined` branch of the update object leaves the field untouched). -/
def updateUserStatus (s : Store) (userId : UserId) (status : UserStatus) (now : Time) : Store :=
  { s with users := s.users.map (fun u =>
      if u.id == userId then
        { u with status := status
                 lastSeen := if status == .offline then some now else u.lastSeen }
      else u) }

/-- One live socket connection: its handle and the `currentUserId` variable
captured by the connection closure (set by the `join` handler). -/
structure Conn where
  handle : Nat
  currentUserId : Option UserId
deriving DecidableEq, Repr

/-- The socket server's state: the database plus the set of live
connections with their per-connection `currentUserId`. -/
structure ServerState where
  store : Store
  conns : List Conn
deriving DecidableEq, Repr

/-- `io.on("connection", ...)`: a new socket with `currentUserId = null`. -/
def connectSocket (st : ServerState) (handle : Nat) : ServerState :=
  { st with conns := st.conns ++ [⟨handle, none⟩] }

/-- The `join` handler (`src/index.js` lines 70–82): record the user id in
the connection's `currentUserId` and set the user's status to online. -/
def joinSocket (st : ServerState) (handle : Nat) (userId : UserId) (now : Time) : ServerState :=
  { store := updateUserStatus st.store userId .online now
    conns := st.conns.map (fun c =>
      if c.handle == handle then { c with currentUserId := some userId } else c) }

/-- The `disconnect` handler (`src/index.js` lines 269–279): drop the
connection and, whenever its `currentUserId` was set, set that user's
status to offline and stamp `lastSeen` — with no check whether other live
connections for the same user remain. -/
def disconnectSocket (st : ServerState) (handle : Nat) (now : Time) : ServerState :=
  match st.conns.find? (fun c => c.handle == handle) with
  | none => st
  | some c =>
    let remaining := st.conns.filter (fun d => !(d.handle == handle))
    match c.currentUserId with
    | some userId => { store := updateUserStatus st.store userId .offline now, conns := remaining }
    | none => { st with conns := remaining }

/-! ### Helper lemmas -/

/-- Membership in `insertByTimestamp`. -/
lemma mem_insertByTimestamp (x m : Message) (l : List Message) :
    x ∈ insertByTimestamp m l ↔ x = m ∨ x ∈ l := by
  induction l with
  | nil => simp [insertByTimestamp]
  | cons y ys ih =>
    rw [insertByTimestamp]
    by_cases hle : m.timestamp ≤ y.timestamp
    · simp [hle]
    · simp only [hle, if_false, List.mem_cons, ih]
      tauto

/-- Membership in `sortByTimestamp`: sorting is a permutation in the
membership sense. -/
lemma mem_sortByTimestamp (x : Message) (l : List Message) :
    x ∈ sortByTimestamp l ↔ x ∈ l := by
  induction l with
  | nil => simp [sortByTimestamp]
  | cons y ys ih =>
    rw [sortByTimestamp, mem_insertByTimestamp]
    simp [ih]

/-- Inserting into a timestamp-sorted list keeps it sorted. -/
lemma sorted_insertByTimestamp (m : Message) (l : List Message)
    (h : List.Sorted (fun a b => a.timestamp ≤ b.timestamp) l) :
    List.Sorted (fun a b => a.timestamp ≤ b.timestamp) (insertByTimestamp m l) := by
  induction l with
  | nil => simp [insertByTimestamp]
  | cons y ys ih =>
    rw [List.sorted_cons] at h
    rw [insertByTimestamp]
    by_cases hle : m.timestamp ≤ y.timestamp
    · rw [if_pos hle, List.sorted_cons]
      refine ⟨?_, List.sorted_cons.mpr h⟩
      intro b hb
      rcases List.mem_cons.mp hb with hb | hb
      · exact hb ▸ hle
      · exact le_trans hle (h.1 b hb)
    · rw [if_neg hle, List.sorted_cons]
      refine ⟨?_, ih h.2⟩
      intro b hb
      rcases (mem_insertByTimestamp b m ys).mp hb with hb | hb
      · exact hb ▸ le_of_not_le hle
      · exact h.1 b hb

/-- The result of `sortByTimestamp` is sorted ascending by timestamp. -/
lemma sorted_sortByTimestamp (l : List Message) :
    List.Sorted (fun a b => a.timestamp ≤ b.timestamp) (sortByTimestamp l) := by
  induction l with
  | nil => simp [sortByTimestamp]
  | cons y ys ih => exact sorted_insertByTimestamp y (sortByTimestamp ys) ih

/-- A message found by id carries that id. -/
lemma findMessage_id (s : Store) (mid : MsgId) (m : Message)
    (h : findMessage s mid = some m) : m.id = mid := by
  have := List.find?_some h
  simpa using this

/-- A message found by id is a member of the store. -/
lemma findMessage_mem (s : Store) (mid : MsgId) (m : Message)
    (h : findMessage s mid = some m) : m ∈ s.messages :=
  List.mem_of_find?_eq_some h

/-- List form: replacing the documents matching an id and searching for that
id finds the replacement, provided some document matched before. -/
lemma find_map_byId (l : List Message) (mid : MsgId) (x : Message)
    (hx : x.id = mid) (m : Message) (h : l.find? (fun d => d.id == mid) = some m) :
    (l.map (fun d => if d.id == mid then x else d)).find? (fun d => d.id == mid)
      = some x := by
  induction l with
  | nil => simp at h
  | cons y ys ih =>
    by_cases hy : y.id = mid
    · simp [List.find?, hy, hx]
    · have hyb : (y.id == mid) = false := by simp [hy]
      rw [List.find?_cons_of_neg _ (by simp [hy])] at h
      rw [List.map_cons, List.find?_cons_of_neg, ih h]
      simp [hyb, hy]

/-- After `saveMessage s mid x`, looking the id up finds the saved
document, provided the id resolved before and the saved document keeps it. -/
lemma findMessage_saveMessage (s : Store) (mid : MsgId) (x m : Message)
    (hx : x.id = mid) (h : findMessage s mid = some m) :
    findMessage (saveMessage s mid x) mid = some x :=
  find_map_byId s.messages mid x hx m h

/-- In a store whose message ids are pairwise distinct, `findMessage`
resolves a member's id to that member. -/
lemma find_byId_of_nodup (l : List Message) (m : Message)
    (hnodup : (l.map Message.id).Nodup) (hm : m ∈ l) :
    l.find? (fun d => d.id == m.id) = some m := by
  induction l with
  | nil => simp at hm
  | cons y ys ih =>
    rw [List.map_cons, List.nodup_cons] at hnodup
    rcases List.mem_cons.mp hm with hm | hm
    · subst hm
      simp [List.find?]
    · have hne : y.id ≠ m.id := by
        intro hcontra
        exact hnodup.1 (hcontra ▸ List.mem_map_of_mem Message.id hm)
      rw [List.find?_cons_of_neg _ (by simp [hne])]
      exact ih hnodup.2 hm

/-- Store form of `find_byId_of_nodup`. -/
lemma findMessage_of_nodup (s : Store) (m : Message)
    (hnodup : (s.messages.map Message.id).Nodup) (hm : m ∈ s.messages) :
    findMessage s m.id = some m :=
  find_byId_of_nodup s.messages m hnodup hm

/-- Matching a reaction on `(user, emoji)` is deciding equality with the
record built from that pair. -/
lemma reaction_match_iff (r : Reaction) (userId : UserId) (emoji : String) :
    (r.user == userId && r.emoji == emoji) = true ↔ r = ⟨userId, emoji⟩ := by
  cases r with
  | mk u e =>
    simp only [Bool.and_eq_true, beq_iff_eq]
    constructor
    · rintro ⟨h1, h2⟩; simp [h1, h2]
    · intro h; cases h; exact ⟨rfl, rfl⟩

/-- Toggling a `(user, emoji)` reaction twice restores the reaction set:
every reaction record is present afterwards iff it was present before. -/
lemma toggleReaction_involutive (l : List Reaction) (userId : UserId) (emoji : String)
    (r : Reaction) :
    r ∈ toggleReaction (toggleReaction l userId emoji) userId emoji ↔ r ∈ l := by
  classical
  set p : Reaction → Bool := fun r => r.user == userId && r.emoji == emoji with hp
  by_cases hany : l.any p
  · -- the pair was present: first call filters it out, second appends it
    have h1 : toggleReaction l userId emoji = l.filter (fun r => !(p r)) := by
      rw [toggleReaction, if_pos hany]
    have hnone : (l.filter (fun r => !(p r))).any p = false := by
      rw [List.any_eq_false]
      intro x hx
      have := (List.mem_filter.mp hx).2
      simp only [Bool.not_eq_true'] at this
      simp [this]
    have h2 : toggleReaction (l.filter (fun r => !(p r))) userId emoji
        = l.filter (fun r => !(p r)) ++ [⟨userId, emoji⟩] := by
      rw [toggleReaction, hnone]
      simp
    rw [h1, h2, List.mem_append]
    constructor
    · rintro (hr | hr)
      · exact (List.mem_filter.mp hr).1
      · have hr' : r = ⟨userId, emoji⟩ := by simpa using hr
        subst hr'
        rcases List.any_eq_true.mp hany with ⟨x, hxl, hxp⟩
        have : x = ⟨userId, emoji⟩ := (reaction_match_iff x userId emoji).mp hxp
        exact this ▸ hxl
    · intro hr
      by_cases hpr : p r = true
      · right
        have : r = ⟨userId, emoji⟩ := (reaction_match_iff r userId emoji).mp hpr
        simp [this]
      · left
        exact List.mem_filter.mpr ⟨hr, by simp [hpr]⟩
  · -- the pair was absent: first call appends it, second filters exactly it out
    have hany' : (l.any p) = false := by simpa using hany
    have h1 : toggleReaction l userId emoji = l ++ [⟨userId, emoji⟩] := by
      rw [toggleReaction, hany']
      simp
    have hmem : ((l ++ [(⟨userId, emoji⟩ : Reaction)]).any p) = true := by
      rw [List.any_eq_true]
      exact ⟨⟨userId, emoji⟩, by simp, by simp [hp]⟩
    have h2 : toggleReaction (l ++ [⟨userId, emoji⟩]) userId emoji
        = (l ++ [(⟨userId, emoji⟩ : Reaction)]).filter (fun r => !(p r)) := by
      rw [toggleReaction, if_pos hmem]
    have hfl : l.filter (fun r => !(p r)) = l := by
      apply List.filter_eq_self.mpr
      intro x hx
      have : p x = false := by
        rw [List.any_eq_false] at hany'
        simpa using hany' x hx
      simp [this]
    rw [h1, h2, List.filter_append, hfl]
    simp [hp]

/-! ### Claim theorems -/

/-- C1: when the receiver's block-list contains the sender, a send fails
with `Forbidden` on the durable path and with the blocked-sender error on
the live socket path, with no message persisted (both operations return an
error and no store), for every nonempty body and every content kind. -/
theorem blocked_send_forbidden_on_both_paths
    (s : Store) (sender receiver : UserId) (ru : User)
    (text : String) (messageType : Option MessageType) (mediaUrl : Option String)
    (replyTo : Option MsgId) (oneTimeView : Option Bool) (now : Time)
    (hru : findUser s receiver = some ru)
    (hblocked : sender ∈ ru.blockedUsers)
    (htext : text ≠ "") :
    sendMessage s sender receiver text messageType mediaUrl replyTo oneTimeView now
      = .error .forbidden ∧
    socketSendMessage s (some sender) (some receiver) (some text) messageType
      mediaUrl replyTo oneTimeView now
      = .error "Cannot send message to this user" := by
  constructor
  · simp [sendMessage, hru, hblocked]
  · simp [socketSendMessage, hru, hblocked, htext]

/-- Witness for C1 at a concrete store: user 2 has blocked user 1. -/
theorem blocked_send_forbidden_on_both_paths_witness :
    sendMessage ⟨[⟨2, [1], .offline, none⟩], [], 0⟩ 1 2 "hi" none none none none 5
      = .error .forbidden ∧
    socketSendMessage ⟨[⟨2, [1], .offline, none⟩], [], 0⟩ (some 1) (some 2)
      (some "hi") none none none none 5
      = .error "Cannot send message to this user" :=
  blocked_send_forbidden_on_both_paths _ 1 2 ⟨2, [1], .offline, none⟩ "hi"
    none none none none 5 rfl (by simp) (by decide)

/-- C5: `markMessageRead` by any user other than the stored receiver fails
with `Forbidden`; the operation returns no updated store, so the message's
`isRead`, `readAt` and `viewedAt` are untouched. -/
theorem markRead_nonreceiver_forbidden
    (s : Store) (mid : MsgId) (u : UserId) (now : Time) (m : Message)
    (hfind : findMessage s mid = some m)
    (hnotrecv : m.receiver ≠ u) :
    markMessageRead s mid u now = .error .forbidden := by
  simp [markMessageRead, hfind, hnotrecv]

/-- Witness for C5: the sender (user 5) attempts to mark the message read. -/
theorem markRead_nonreceiver_forbidden_witness :
    markMessageRead
      ⟨[], [⟨1, 5, 2, "yo", .text, none, none, false, none, [], false, [], false, none, 3⟩], 2⟩
      1 5 10 = .error .forbidden :=
  markRead_nonreceiver_forbidden _ 1 5 10
    ⟨1, 5, 2, "yo", .text, none, none, false, none, [], false, [], false, none, 3⟩
    rfl (by decide)

/-- C9: toggling a `(user, emoji)` reaction twice through `addReaction`
returns the message's reaction set to exactly its original state: both
calls succeed and every reaction record is present after the second call
iff it was present originally. -/
theorem addReaction_twice_restores
    (s : Store) (mid : MsgId) (u : UserId) (e : String) (m : Message)
    (hfind : findMessage s mid = some m) (he : e ≠ "") :
    addReaction s mid u e = .ok (toggleReaction m.reactions u e,
      saveMessage s mid { m with reactions := toggleReaction m.reactions u e }) ∧
    addReaction (saveMessage s mid { m with reactions := toggleReaction m.reactions u e }) mid u e
      = .ok (toggleReaction (toggleReaction m.reactions u e) u e,
        saveMessage (saveMessage s mid { m with reactions := toggleReaction m.reactions u e }) mid
          { m with reactions := toggleReaction (toggleReaction m.reactions u e) u e }) ∧
    ∀ r : Reaction, r ∈ toggleReaction (toggleReaction m.reactions u e) u e ↔ r ∈ m.reactions := by
  have hid : m.id = mid := findMessage_id s mid m hfind
  have hfind2 : findMessage
      (saveMessage s mid { m with reactions := toggleReaction m.reactions u e }) mid
      = some { m with reactions := toggleReaction m.reactions u e } :=
    findMessage_saveMessage s mid _ m (by simpa using hid) hfind
  refine ⟨?_, ?_, fun r => toggleReaction_involutive m.reactions u e r⟩
  · simp [addReaction, hfind, he]
  · simp [addReaction, hfind2, he]

/-- Witness for C9 on a message carrying one unrelated reaction: the two
calls succeed and the toggled pair is absent again after the second call. -/
theorem addReaction_twice_restores_witness :
    addReaction
      ⟨[], [⟨1, 5, 2, "yo", .text, none, none, false, none, [⟨9, "x"⟩], false, [], false, none, 3⟩], 2⟩
      1 7 "up"
      = .ok (toggleReaction [⟨9, "x"⟩] 7 "up",
        saveMessage
          ⟨[], [⟨1, 5, 2, "yo", .text, none, none, false, none, [⟨9, "x"⟩], false, [], false, none, 3⟩], 2⟩
          1 { (⟨1, 5, 2, "yo", .text, none, none, false, none, [⟨9, "x"⟩], false, [], false, none, 3⟩ : Message)
              with reactions := toggleReaction [⟨9, "x"⟩] 7 "up" }) ∧
    ((⟨7, "up"⟩ : Reaction) ∈ toggleReaction (toggleReaction [⟨9, "x"⟩] 7 "up") 7 "up"
      ↔ (⟨7, "up"⟩ : Reaction) ∈ ([⟨9, "x"⟩] : List Reaction)) :=
  ⟨(addReaction_twice_restores
      ⟨[], [⟨1, 5, 2, "yo", .text, none, none, false, none, [⟨9, "x"⟩], false, [], false, none, 3⟩], 2⟩
      1 7 "up"
      ⟨1, 5, 2, "yo", .text, none, none, false, none, [⟨9, "x"⟩], false, [], false, none, 3⟩
      rfl (by decide)).1,
   (addReaction_twice_restores
      ⟨[], [⟨1, 5, 2, "yo", .text, none, none, false, none, [⟨9, "x"⟩], false, [], false, none, 3⟩], 2⟩
      1 7 "up"
      ⟨1, 5, 2, "yo", .text, none, none, false, none, [⟨9, "x"⟩], false, [], false, none, 3⟩
      rfl (by decide)).2.2 ⟨7, "up"⟩⟩

/-- Saving the same document twice under one id is the same as saving it
once. -/
lemma saveMessage_saveMessage (s : Store) (mid : MsgId) (x : Message) :
    saveMessage (saveMessage s mid x) mid x = saveMessage s mid x := by
  simp only [saveMessage, List.map_map]
  have hcomp : ((fun m : Message => if m.id == mid then x else m) ∘
      fun m : Message => if m.id == mid then x else m)
      = fun m : Message => if m.id == mid then x else m := by
    funext d
    simp only [Function.comp]
    by_cases h : d.id = mid
    · simp [h]
    · simp [h]
  rw [hcomp]

/-- C3 counterexample: on message 1 (sender 5, receiver 2), a
`deleteForEveryone` request by the receiver does not fail `Forbidden`:
it succeeds and mutates the message, appending the receiver to
`deletedFor` while leaving `isDeleted` false. -/
theorem delete_forEveryone_by_receiver_not_forbidden :
    deleteMessage
      ⟨[], [⟨1, 5, 2, "yo", .text, none, none, false, none, [], false, [], false, none, 3⟩], 2⟩
      1 2 true
      = .ok ⟨[], [⟨1, 5, 2, "yo", .text, none, none, false, none, [], false, [2], false, none, 3⟩], 2⟩ ∧
    (⟨1, 5, 2, "yo", .text, none, none, false, none, [], false, [2], false, none, 3⟩ : Message)
      ≠ ⟨1, 5, 2, "yo", .text, none, none, false, none, [], false, [], false, none, 3⟩ :=
  ⟨rfl, by decide⟩

/-- C3 amended: a `deleteForEveryone` request by the receiver (who is not
the sender) does not fail — it degrades to a delete-for-me, appending the
receiver to `deletedFor` and leaving body and `isDeleted` alone; only the
sender's `deleteForEveryone` sets `isDeleted` and writes the tombstone
body. -/
theorem delete_forEveryone_sender_only
    (s : Store) (mid : MsgId) (u : UserId) (m : Message)
    (hfind : findMessage s mid = some m)
    (hrecv : m.receiver = u) (hnotsender : m.sender ≠ u) :
    deleteMessage s mid u true
      = .ok (saveMessage s mid { m with deletedFor := m.deletedFor ++ [u] }) ∧
    deleteMessage s mid m.sender true
      = .ok (saveMessage s mid { m with isDeleted := true, text := tombstoneText }) := by
  constructor
  · simp [deleteMessage, hfind, hrecv, hnotsender]
  · simp [deleteMessage, hfind]

/-- Witness for C3's amended theorem at a concrete store. -/
theorem delete_forEveryone_sender_only_witness :
    deleteMessage
      ⟨[], [⟨1, 5, 2, "yo", .text, none, none, false, none, [], false, [], false, none, 3⟩], 2⟩
      1 2 true
      = .ok (saveMessage
        ⟨[], [⟨1, 5, 2, "yo", .text, none, none, false, none, [], false, [], false, none, 3⟩], 2⟩
        1 { (⟨1, 5, 2, "yo", .text, none, none, false, none, [], false, [], false, none, 3⟩ : Message)
            with deletedFor := [] ++ [2] }) ∧
    deleteMessage
      ⟨[], [⟨1, 5, 2, "yo", .text, none, none, false, none, [], false, [], false, none, 3⟩], 2⟩
      1 5 true
      = .ok (saveMessage
        ⟨[], [⟨1, 5, 2, "yo", .text, none, none, false, none, [], false, [], false, none, 3⟩], 2⟩
        1 { (⟨1, 5, 2, "yo", .text, none, none, false, none, [], false, [], false, none, 3⟩ : Message)
            with isDeleted := true, text := tombstoneText }) :=
  delete_forEveryone_sender_only _ 1 2
    ⟨1, 5, 2, "yo", .text, none, none, false, none, [], false, [], false, none, 3⟩
    rfl rfl (by decide)

/-- C4 counterexample: marking message 1 read at time 10 and then again at
time 20 does not yield the state of a single call — the second call
re-stamps `readAt` from `some 10` to `some 20`. -/
theorem markRead_twice_changes_readAt :
    markMessageRead
      ⟨[], [⟨1, 5, 2, "yo", .text, none, none, false, none, [], false, [], false, none, 3⟩], 2⟩
      1 2 10
      = .ok ⟨[], [⟨1, 5, 2, "yo", .text, none, none, true, some 10, [], false, [], false, none, 3⟩], 2⟩ ∧
    markMessageRead
      ⟨[], [⟨1, 5, 2, "yo", .text, none, none, true, some 10, [], false, [], false, none, 3⟩], 2⟩
      1 2 20
      = .ok ⟨[], [⟨1, 5, 2, "yo", .text, none, none, true, some 20, [], false, [], false, none, 3⟩], 2⟩ ∧
    (⟨[], [⟨1, 5, 2, "yo", .text, none, none, true, some 20, [], false, [], false, none, 3⟩], 2⟩ : Store)
      ≠ ⟨[], [⟨1, 5, 2, "yo", .text, none, none, true, some 10, [], false, [], false, none, 3⟩], 2⟩ :=
  ⟨rfl, rfl, by decide⟩

/-- C4 amended: the second `markMessageRead` by the receiver is accepted
(no error) and leaves the stored message exactly as after the first call
except that `readAt` is re-stamped to the second call's time; when the two
calls carry the same timestamp the second call is a strict no-op. -/
theorem markRead_twice_restamps_readAt
    (s : Store) (mid : MsgId) (u : UserId) (t1 t2 : Time) (m : Message)
    (hfind : findMessage s mid = some m) (hrecv : m.receiver = u) :
    markMessageRead s mid u t1 = .ok (saveMessage s mid (markReadUpdate m t1)) ∧
    markMessageRead (saveMessage s mid (markReadUpdate m t1)) mid u t2
      = .ok (saveMessage (saveMessage s mid (markReadUpdate m t1)) mid
          { markReadUpdate m t1 with readAt := some t2 }) ∧
    (t2 = t1 → markMessageRead (saveMessage s mid (markReadUpdate m t1)) mid u t2
      = .ok (saveMessage s mid (markReadUpdate m t1))) := by
  have hid : m.id = mid := findMessage_id s mid m hfind
  obtain ⟨i0, snd, rcv, txt, mt, mu, rt, ir, ra, rx, idl, df, otv, va, ts⟩ := m
  simp only at hid hrecv
  subst hid hrecv
  cases otv with
  | false =>
    have hfind1 := findMessage_saveMessage s i0
      ⟨i0, snd, rcv, txt, mt, mu, rt, true, some t1, rx, idl, df, false, va, ts⟩ _ rfl hfind
    refine ⟨?_, ?_, ?_⟩
    · simp [markMessageRead, markReadUpdate, hfind]
    · simp [markMessageRead, markReadUpdate, hfind1]
    · intro ht
      subst ht
      simp [markMessageRead, markReadUpdate, hfind1, saveMessage_saveMessage]
  | true =>
    cases va with
    | none =>
      have hfind1 := findMessage_saveMessage s i0
        ⟨i0, snd, rcv, txt, mt, mu, rt, true, some t1, rx, idl, df, true, some t1, ts⟩ _ rfl hfind
      refine ⟨?_, ?_, ?_⟩
      · simp [markMessageRead, markReadUpdate, hfind]
      · simp [markMessageRead, markReadUpdate, hfind1]
      · intro ht
        subst ht
        simp [markMessageRead, markReadUpdate, hfind1, saveMessage_saveMessage]
    | some w =>
      have hfind1 := findMessage_saveMessage s i0
        ⟨i0, snd, rcv, txt, mt, mu, rt, true, some t1, rx, idl, df, true, some w, ts⟩ _ rfl hfind
      refine ⟨?_, ?_, ?_⟩
      · simp [markMessageRead, markReadUpdate, hfind]
      · simp [markMessageRead, markReadUpdate, hfind1]
      · intro ht
        subst ht
        simp [markMessageRead, markReadUpdate, hfind1, saveMessage_saveMessage]

/-- Witness for C4's amended theorem at a concrete store: message 1,
receiver 2, first call at time 10, second at time 20. -/
theorem markRead_twice_restamps_readAt_witness :
    markMessageRead
      ⟨[], [⟨1, 5, 2, "yo", .text, none, none, false, none, [], false, [], false, none, 3⟩], 2⟩
      1 2 10
      = .ok (saveMessage
        ⟨[], [⟨1, 5, 2, "yo", .text, none, none, false, none, [], false, [], false, none, 3⟩], 2⟩
        1 ⟨1, 5, 2, "yo", .text, none, none, true, some 10, [], false, [], false, none, 3⟩) ∧
    markMessageRead (saveMessage
        ⟨[], [⟨1, 5, 2, "yo", .text, none, none, false, none, [], false, [], false, none, 3⟩], 2⟩
        1 ⟨1, 5, 2, "yo", .text, none, none, true, some 10, [], false, [], false, none, 3⟩) 1 2 20
      = .ok (saveMessage (saveMessage
          ⟨[], [⟨1, 5, 2, "yo", .text, none, none, false, none, [], false, [], false, none, 3⟩], 2⟩
          1 ⟨1, 5, 2, "yo", .text, none, none, true, some 10, [], false, [], false, none, 3⟩)
          1 ⟨1, 5, 2, "yo", .text, none, none, true, some 20, [], false, [], false, none, 3⟩) ∧
    (20 = 10 → markMessageRead (saveMessage
        ⟨[], [⟨1, 5, 2, "yo", .text, none, none, false, none, [], false, [], false, none, 3⟩], 2⟩
        1 ⟨1, 5, 2, "yo", .text, none, none, true, some 10, [], false, [], false, none, 3⟩) 1 2 20
      = .ok (saveMessage
        ⟨[], [⟨1, 5, 2, "yo", .text, none, none, false, none, [], false, [], false, none, 3⟩], 2⟩
        1 ⟨1, 5, 2, "yo", .text, none, none, true, some 10, [], false, [], false, none, 3⟩)) :=
  markRead_twice_restamps_readAt
    ⟨[], [⟨1, 5, 2, "yo", .text, none, none, false, none, [], false, [], false, none, 3⟩], 2⟩
    1 2 10 20
    ⟨1, 5, 2, "yo", .text, none, none, false, none, [], false, [], false, none, 3⟩
    rfl rfl

/-- C2 counterexample: on the legacy live send path of
`src/unnamed/part_002`, a `sendMessage` event is routed to both rooms while
the database is left untouched — the emitted live events have no backing
persisted record (the store still holds no messages at all). -/
theorem legacy_live_send_emits_without_persisting :
    (socketSendMessageLegacy ⟨[⟨1, [], .offline, none⟩, ⟨2, [], .offline, none⟩], [], 0⟩ 1 2 "hi").2
      = [⟨1, 1, 2, "hi"⟩, ⟨2, 1, 2, "hi"⟩] ∧
    ((socketSendMessageLegacy ⟨[⟨1, [], .offline, none⟩, ⟨2, [], .offline, none⟩], [], 0⟩ 1 2 "hi").1).messages
      = [] :=
  ⟨rfl, rfl⟩

/-- C2 amended: on the live send path of `src/index.js`, whenever the
handler succeeds, every emitted `newMessage` event carries a message that
is present in the resulting store — the persist precedes the emit and no
emitted message lacks a backing record; the legacy handler of
`src/unnamed/part_002` does not satisfy this (it persists nothing). -/
theorem live_send_emits_only_persisted
    (s : Store) (sender receiver : Option UserId) (text : Option String)
    (messageType : Option MessageType) (mediaUrl : Option String)
    (replyTo : Option MsgId) (oneTimeView : Option Bool) (now : Time)
    (s2 : Store) (emits : List Emit)
    (hok : socketSendMessage s sender receiver text messageType mediaUrl
      replyTo oneTimeView now = .ok (s2, emits)) :
    ∀ e ∈ emits, e.message ∈ s2.messages := by
  cases sender with
  | none => simp [socketSendMessage] at hok
  | some snd =>
    cases receiver with
    | none => simp [socketSendMessage] at hok
    | some rcv =>
      cases text with
      | none => simp [socketSendMessage] at hok
      | some txt =>
        simp only [socketSendMessage] at hok
        by_cases htxt : txt = ""
        · simp [htxt] at hok
        · rw [if_neg htxt] at hok
          split at hok
          · simp at hok
          · simp only [Except.ok.injEq, Prod.mk.injEq] at hok
            obtain ⟨hs2, hemits⟩ := hok
            subst hs2
            subst hemits
            intro e he
            simp only [List.mem_cons, List.not_mem_nil, or_false] at he
            rcases he with rfl | rfl <;> simp [insertMessage]

/-- Witness for C2's amended theorem: a concrete successful live send,
specialised to the emit directed at the sender's room. -/
theorem live_send_emits_only_persisted_witness :
    (Emit.mk 1 (mkMessage ⟨[⟨2, [], .offline, none⟩], [], 0⟩ 1 2 "hi" none none none none 5)).message
      ∈ (insertMessage ⟨[⟨2, [], .offline, none⟩], [], 0⟩
          (mkMessage ⟨[⟨2, [], .offline, none⟩], [], 0⟩ 1 2 "hi" none none none none 5)).messages :=
  live_send_emits_only_persisted ⟨[⟨2, [], .offline, none⟩], [], 0⟩
    (some 1) (some 2) (some "hi") none none none none 5
    (insertMessage ⟨[⟨2, [], .offline, none⟩], [], 0⟩
      (mkMessage ⟨[⟨2, [], .offline, none⟩], [], 0⟩ 1 2 "hi" none none none none 5))
    [⟨1, mkMessage ⟨[⟨2, [], .offline, none⟩], [], 0⟩ 1 2 "hi" none none none none 5⟩,
     ⟨2, mkMessage ⟨[⟨2, [], .offline, none⟩], [], 0⟩ 1 2 "hi" none none none none 5⟩]
    rfl
    ⟨1, mkMessage ⟨[⟨2, [], .offline, none⟩], [], 0⟩ 1 2 "hi" none none none none 5⟩
    (by simp)

/-- C7 counterexample: a live-path send whose receiver id (99) resolves to
no user does not fail `NotFound` — the message is persisted and emitted to
both rooms. -/
theorem live_send_to_missing_receiver_persists :
    findUser ⟨[⟨1, [], .offline, none⟩], [], 0⟩ 99 = none ∧
    socketSendMessage ⟨[⟨1, [], .offline, none⟩], [], 0⟩ (some 1) (some 99)
      (some "hi") none none none none 4
      = .ok (⟨[⟨1, [], .offline, none⟩],
          [⟨0, 1, 99, "hi", .text, none, none, false, none, [], false, [], false, none, 4⟩], 1⟩,
        [⟨1, ⟨0, 1, 99, "hi", .text, none, none, false, none, [], false, [], false, none, 4⟩⟩,
         ⟨99, ⟨0, 1, 99, "hi", .text, none, none, false, none, [], false, [], false, none, 4⟩⟩]) :=
  ⟨rfl, rfl⟩

/-- C7 amended: a nonexistent receiver yields `NotFound` with nothing
persisted on the durable path only; the live path of `src/index.js` makes
no existence check (its block check is skipped when the receiver record is
absent) and persists and emits the message. -/
theorem send_missing_receiver_paths
    (s : Store) (sender receiver : UserId) (text : String)
    (messageType : Option MessageType) (mediaUrl : Option String)
    (replyTo : Option MsgId) (oneTimeView : Option Bool) (now : Time)
    (hnone : findUser s receiver = none) (htext : text ≠ "") :
    sendMessage s sender receiver text messageType mediaUrl replyTo oneTimeView now
      = .error .notFound ∧
    socketSendMessage s (some sender) (some receiver) (some text) messageType
      mediaUrl replyTo oneTimeView now
      = .ok (insertMessage s (mkMessage s sender receiver text messageType mediaUrl replyTo oneTimeView now),
        [⟨sender, mkMessage s sender receiver text messageType mediaUrl replyTo oneTimeView now⟩,
         ⟨receiver, mkMessage s sender receiver text messageType mediaUrl replyTo oneTimeView now⟩]) := by
  constructor
  · simp [sendMessage, hnone]
  · simp [socketSendMessage, hnone, htext]

/-- Witness for C7's amended theorem at a concrete store without user 99. -/
theorem send_missing_receiver_paths_witness :
    sendMessage ⟨[⟨1, [], .offline, none⟩], [], 0⟩ 1 99 "hi" none none none none 4
      = .error .notFound ∧
    socketSendMessage ⟨[⟨1, [], .offline, none⟩], [], 0⟩ (some 1) (some 99)
      (some "hi") none none none none 4
      = .ok (insertMessage ⟨[⟨1, [], .offline, none⟩], [], 0⟩
          (mkMessage ⟨[⟨1, [], .offline, none⟩], [], 0⟩ 1 99 "hi" none none none none 4),
        [⟨1, mkMessage ⟨[⟨1, [], .offline, none⟩], [], 0⟩ 1 99 "hi" none none none none 4⟩,
         ⟨99, mkMessage ⟨[⟨1, [], .offline, none⟩], [], 0⟩ 1 99 "hi" none none none none 4⟩]) :=
  send_missing_receiver_paths ⟨[⟨1, [], .offline, none⟩], [], 0⟩ 1 99 "hi"
    none none none none 4 rfl (by decide)

/-- C6: with two live connections joined for user 7, disconnecting one of
them already flips user 7 to `offline` and stamps `lastSeen`, although the
second connection for user 7 is still live — the disconnect handler keeps
no per-user connection count. -/
theorem disconnect_flips_offline_despite_remaining_handle :
    (disconnectSocket
        (joinSocket (connectSocket
          (joinSocket (connectSocket ⟨⟨[⟨7, [], .offline, none⟩], [], 0⟩, []⟩ 100) 100 7 1)
          101) 101 7 2)
        100 5).conns = [⟨101, some 7⟩] ∧
    findUser (disconnectSocket
        (joinSocket (connectSocket
          (joinSocket (connectSocket ⟨⟨[⟨7, [], .offline, none⟩], [], 0⟩, []⟩ 100) 100 7 1)
          101) 101 7 2)
        100 5).store 7
      = some ⟨7, [], .offline, some 5⟩ :=
  ⟨rfl, rfl⟩

/-- Membership in the `getMessages` response: exactly the stored messages
between the two users whose `deletedFor` does not contain the requester. -/
lemma mem_getMessages (s : Store) (u c : UserId) (now : Time) (x : Message) :
    x ∈ (getMessages s u c now).1 ↔
      x ∈ s.messages ∧ betweenUsers u c x = true ∧ u ∉ x.deletedFor := by
  simp only [getMessages]
  rw [mem_sortByTimestamp, List.mem_filter]
  simp [and_assoc]

/-- The two directions of `betweenUsers` agree. -/
lemma betweenUsers_comm (a b : UserId) (m : Message) :
    betweenUsers a b m = betweenUsers b a m := by
  simp only [betweenUsers]
  exact Bool.or_comm _ _

/-- C8: the `getMessages` view of a conversation is sorted ascending by
timestamp and contains exactly the stored messages between the two users
not locally deleted by the requester; consequently, after the requester's
`deleteForEveryone=false` delete of message `m`, the requester's view no
longer contains `m`'s id while the counterpart's view still contains it
with its original body and `isDeleted` flag. -/
theorem listBetween_view_and_local_delete
    (s : Store) (u c : UserId) (now t : Time) (m : Message)
    (hfind : findMessage s m.id = some m)
    (hbetween : betweenUsers u c m = true)
    (hu : u ∉ m.deletedFor) (hc : c ∉ m.deletedFor) (huc : c ≠ u) :
    List.Sorted (fun a b => a.timestamp ≤ b.timestamp) (getMessages s u c now).1 ∧
    (∀ x : Message, x ∈ (getMessages s u c now).1 ↔
      x ∈ s.messages ∧ betweenUsers u c x = true ∧ u ∉ x.deletedFor) ∧
    deleteMessage s m.id u false
      = .ok (saveMessage s m.id { m with deletedFor := m.deletedFor ++ [u] }) ∧
    (∀ x ∈ (getMessages (saveMessage s m.id { m with deletedFor := m.deletedFor ++ [u] }) u c t).1,
      x.id ≠ m.id) ∧
    (∃ x ∈ (getMessages (saveMessage s m.id { m with deletedFor := m.deletedFor ++ [u] }) c u t).1,
      x.id = m.id ∧ x.text = m.text ∧ x.isDeleted = m.isDeleted) := by
  have hauth : m.sender = u ∨ m.receiver = u := by
    have hb := hbetween
    simp only [betweenUsers, Bool.or_eq_true, Bool.and_eq_true, beq_iff_eq] at hb
    rcases hb with ⟨h1, h2⟩ | ⟨h1, h2⟩
    · exact Or.inl h1
    · exact Or.inr h2
  refine ⟨?_, ?_, ?_, ?_, ?_⟩
  · simp only [getMessages]
    exact sorted_sortByTimestamp _
  · exact fun x => mem_getMessages s u c now x
  · rcases hauth with h | h
    · simp [deleteMessage, hfind, h]
    · simp [deleteMessage, hfind, h]
  · intro x hx hxid
    have hmem := (mem_getMessages _ u c t x).mp hx
    obtain ⟨hxs, hxbetween, hxdel⟩ := hmem
    simp only [saveMessage, List.mem_map] at hxs
    obtain ⟨y, hy, hfy⟩ := hxs
    by_cases hyid : y.id = m.id
    · rw [if_pos (by simp [hyid])] at hfy
      apply hxdel
      rw [← hfy]
      simp
    · rw [if_neg (by simp [hyid])] at hfy
      exact hyid (hfy ▸ hxid)
  · refine ⟨{ m with deletedFor := m.deletedFor ++ [u] }, ?_, rfl, rfl, rfl⟩
    apply (mem_getMessages _ c u t _).mpr
    refine ⟨?_, ?_, ?_⟩
    · simp only [saveMessage, List.mem_map]
      exact ⟨m, findMessage_mem s m.id m hfind, by simp⟩
    · rw [show betweenUsers c u { m with deletedFor := m.deletedFor ++ [u] }
          = betweenUsers c u m from rfl, betweenUsers_comm]
      exact hbetween
    · simp [hc, huc]

/-- Witness for C8 at a concrete two-message store: user 2 locally deletes
message 1 of their conversation with user 5. -/
theorem listBetween_view_and_local_delete_witness :
    List.Sorted (fun a b => a.timestamp ≤ b.timestamp)
      (getMessages ⟨[], [⟨1, 5, 2, "yo", .text, none, none, false, none, [], false, [], false, none, 3⟩,
        ⟨2, 2, 5, "re", .text, none, none, false, none, [], false, [], false, none, 7⟩], 3⟩ 2 5 9).1 ∧
    (∀ x : Message, x ∈ (getMessages ⟨[], [⟨1, 5, 2, "yo", .text, none, none, false, none, [], false, [], false, none, 3⟩,
        ⟨2, 2, 5, "re", .text, none, none, false, none, [], false, [], false, none, 7⟩], 3⟩ 2 5 9).1 ↔
      x ∈ [⟨1, 5, 2, "yo", .text, none, none, false, none, [], false, [], false, none, 3⟩,
        ⟨2, 2, 5, "re", .text, none, none, false, none, [], false, [], false, none, 7⟩] ∧
      betweenUsers 2 5 x = true ∧ 2 ∉ x.deletedFor) ∧
    deleteMessage ⟨[], [⟨1, 5, 2, "yo", .text, none, none, false, none, [], false, [], false, none, 3⟩,
        ⟨2, 2, 5, "re", .text, none, none, false, none, [], false, [], false, none, 7⟩], 3⟩ 1 2 false
      = .ok (saveMessage ⟨[], [⟨1, 5, 2, "yo", .text, none, none, false, none, [], false, [], false, none, 3⟩,
          ⟨2, 2, 5, "re", .text, none, none, false, none, [], false, [], false, none, 7⟩], 3⟩ 1
          ⟨1, 5, 2, "yo", .text, none, none, false, none, [], false, [2], false, none, 3⟩) ∧
    (∀ x ∈ (getMessages (saveMessage ⟨[], [⟨1, 5, 2, "yo", .text, none, none, false, none, [], false, [], false, none, 3⟩,
          ⟨2, 2, 5, "re", .text, none, none, false, none, [], false, [], false, none, 7⟩], 3⟩ 1
          ⟨1, 5, 2, "yo", .text, none, none, false, none, [], false, [2], false, none, 3⟩) 2 5 11).1,
      x.id ≠ 1) ∧
    (∃ x ∈ (getMessages (saveMessage ⟨[], [⟨1, 5, 2, "yo", .text, none, none, false, none, [], false, [], false, none, 3⟩,
          ⟨2, 2, 5, "re", .text, none, none, false, none, [], false, [], false, none, 7⟩], 3⟩ 1
          ⟨1, 5, 2, "yo", .text, none, none, false, none, [], false, [2], false, none, 3⟩) 5 2 11).1,
      x.id = 1 ∧ x.text = "yo" ∧ x.isDeleted = false) :=
  listBetween_view_and_local_delete
    ⟨[], [⟨1, 5, 2, "yo", .text, none, none, false, none, [], false, [], false, none, 3⟩,
      ⟨2, 2, 5, "re", .text, none, none, false, none, [], false, [], false, none, 7⟩], 3⟩
    2 5 9 11
    ⟨1, 5, 2, "yo", .text, none, none, false, none, [], false, [], false, none, 3⟩
    rfl rfl (by decide) (by decide) (by decide)

/-- C10: when the `getMessages` response contains an unread message sent by
the counterpart to the requester, the store returned alongside the
response holds that message updated to `isRead = true` with `readAt`
stamped, while the response element itself is the pre-update snapshot. -/
theorem getMessages_response_is_preupdate_snapshot
    (s : Store) (u c : UserId) (now : Time) (m : Message)
    (hm : m ∈ (getMessages s u c now).1)
    (hsender : m.sender = c) (hrecv : m.receiver = u) (hunread : m.isRead = false) :
    { m with isRead := true, readAt := some now } ∈ (getMessages s u c now).2.messages := by
  have hmem := (mem_getMessages s u c now m).mp hm
  obtain ⟨hms, hmb, hmd⟩ := hmem
  simp only [getMessages] at hm ⊢
  have hmu : m ∈ (sortByTimestamp (s.messages.filter
      (fun x => betweenUsers u c x && !(x.deletedFor.contains u)))).filter
      (fun x => x.sender == c && !x.isRead) :=
    List.mem_filter.mpr ⟨hm, by simp [hsender, hunread]⟩
  have hne : ((sortByTimestamp (s.messages.filter
      (fun x => betweenUsers u c x && !(x.deletedFor.contains u)))).filter
      (fun x => x.sender == c && !x.isRead)).isEmpty = false := by
    cases h : ((sortByTimestamp (s.messages.filter
        (fun x => betweenUsers u c x && !(x.deletedFor.contains u)))).filter
        (fun x => x.sender == c && !x.isRead)).isEmpty
    · rfl
    · rw [List.isEmpty_iff] at h
      rw [h] at hmu
      simp at hmu
  rw [if_neg (by rw [hne]; exact Bool.false_ne_true)]
  have hid : (((sortByTimestamp (s.messages.filter
      (fun x => betweenUsers u c x && !(x.deletedFor.contains u)))).filter
      (fun x => x.sender == c && !x.isRead)).map Message.id).contains m.id = true := by
    have : m.id ∈ ((sortByTimestamp (s.messages.filter
        (fun x => betweenUsers u c x && !(x.deletedFor.contains u)))).filter
        (fun x => x.sender == c && !x.isRead)).map Message.id :=
      List.mem_map_of_mem Message.id hmu
    simpa using this
  refine List.mem_map.mpr ⟨m, hms, ?_⟩
  rw [if_pos hid]

/-- Witness for C10: message 1 (from user 5 to user 2, unread) appears
read with `readAt = 9` in the store returned by `getMessages` even though
the response listed it unread. -/
theorem getMessages_response_is_preupdate_snapshot_witness :
    { (⟨1, 5, 2, "yo", .text, none, none, false, none, [], false, [], false, none, 3⟩ : Message)
      with isRead := true, readAt := some 9 }
      ∈ (getMessages
        ⟨[], [⟨1, 5, 2, "yo", .text, none, none, false, none, [], false, [], false, none, 3⟩], 2⟩
        2 5 9).2.messages :=
  getMessages_response_is_preupdate_snapshot
    ⟨[], [⟨1, 5, 2, "yo", .text, none, none, false, none, [], false, [], false, none, 3⟩], 2⟩
    2 5 9
    ⟨1, 5, 2, "yo", .text, none, none, false, none, [], false, [], false, none, 3⟩
    (by decide) rfl rfl rfl

end Chatrack
